import Mathlib

/-!
Verification development for the ssh-mcp-server repository (entry point
`index.js`, v2.1.7, plus `lib/ssh-client.js`).

The JavaScript source is shallowly embedded: pure computations become Lean
functions, the filesystem and the remote SSH execution become explicit
parameters (`String → Option α` for readable files, `Except` values for the
outcome of a remote call), and the synthesized remote shell scripts are
modelled line by line by Lean functions on a list-of-lines file model,
following POSIX/GNU bash, grep, and sed semantics for the exact command
shapes the synthesizer produces.
-/

/-! ## KeyResolver (`lib/ssh-client.js`, `getPrivateKey` and `defaultKeyPaths`) -/

/-- The three default private-key paths built in the `SSHClient` constructor:
`join(homedir(), '.ssh', 'id_rsa')`, then `id_ed25519`, then `id_ecdsa`. -/
def defaultKeyPaths (home : String) : List String :=
  [home ++ "/.ssh/id_rsa", home ++ "/.ssh/id_ed25519", home ++ "/.ssh/id_ecdsa"]

/-- `const paths = keyPath ? [keyPath] : this.defaultKeyPaths`.  JavaScript
truthiness: an absent key path or the empty string selects the default list. -/
def keyCandidates (home : String) (keyPath : Option String) : List String :=
  match keyPath with
  | some p => if p = "" then defaultKeyPaths home else [p]
  | none => defaultKeyPaths home

/-- The `for (const path of paths) { try { return readFileSync(path) } catch { continue } }`
loop.  The filesystem is a map from path to optional content; the first
component of the result records every path actually read, in order. -/
def tryReadPaths {α : Type} (fs : String → Option α) : List String → List String × Option α
  | [] => ([], none)
  | p :: ps =>
    match fs p with
    | some k => ([p], some k)
    | none =>
      let rest := tryReadPaths fs ps
      (p :: rest.1, rest.2)

/-- Tail of the key-resolution error message (source lines 111-114). -/
def keyErrorSuffix : String :=
  "\nPlease provide privateKeyPath or set SSH_PRIVATE_KEY environment variable"

/-- `SSHClient.getPrivateKey`: try the candidate paths in order, return the
bytes of the first readable one, and on total failure throw an error naming
every tried path. -/
def getPrivateKey {α : Type} (fs : String → Option α) (home : String)
    (keyPath : Option String) : Except String α :=
  let paths := keyCandidates home keyPath
  match (tryReadPaths fs paths).2 with
  | some k => Except.ok k
  | none =>
    Except.error ("No private key found. Tried: " ++ String.intercalate ", " paths
      ++ keyErrorSuffix)

/-! ## ConnectionManager configuration (`lib/ssh-client.js`, `executeCommand`) -/

/-- The key-exchange algorithm allow-list in the connection configuration
(source lines 50-55). -/
def kexAllowList : List String :=
  ["ecdh-sha2-nistp256", "ecdh-sha2-nistp384", "ecdh-sha2-nistp521",
   "diffie-hellman-group14-sha256"]

/-- Classifier for the elliptic-curve Diffie-Hellman key-exchange names
(those beginning with `ecdh-sha2-`), used to state the spec's count of
algorithm families. -/
def isEcdhKex (a : String) : Bool :=
  a.toList.take 10 == ("ecdh-sha2-").toList

/-- Modelled from the spec: the repository delegates the actual key-exchange
negotiation to the external ssh2 library, which is not part of the source
tree; per the spec, a session can negotiate an algorithm exactly when it lies
in the configured allow-list, and is rejected otherwise. -/
def kexAccepts (alg : String) : Bool :=
  kexAllowList.contains alg

/-! ## ResultFormatter for the raw-command tool (`index.js`, `executeSSHCommand`) -/

/-- The result shape delivered by `SSHClient.executeCommand` on success:
trimmed stdout, trimmed stderr already collapsed to `null` when empty
(`errorOutput.trim() || null`), and the exit code reported by the channel
close event (absent when the remote process was killed by a signal). -/
structure SSHExecResult where
  output : String
  error : Option String
  exitCode : Option Int
deriving DecidableEq

/-- The structured envelope serialized into the `remote-ssh` tool's text
response (source lines 199-219). -/
structure Envelope where
  success : Bool
  output : String
  error : Option String
  exitCode : Int
  host : String
  command : String
deriving DecidableEq

/-- JavaScript `x || null` on a nullable string: the empty string is falsy. -/
def jsOrNullStr (s : Option String) : Option String :=
  match s with
  | none => none
  | some st => if st = "" then none else some st

/-- JavaScript `x || 0` on a nullable number: `0` and `null` both yield `0`. -/
def jsOrZero (n : Option Int) : Int :=
  match n with
  | none => 0
  | some v => if v = 0 then 0 else v

/-- `executeSSHCommand`: validate the required arguments (JavaScript
truthiness, so the empty string counts as missing and the validation error is
thrown out of the handler), then run the remote command — abstracted as the
`exec` outcome — and wrap either outcome into an `Envelope`; the try/catch
converts a thrown key-resolution/connection/execution error into a
`success := false` envelope instead of propagating it. -/
def executeSSHCommand (host user command : String)
    (exec : Except String SSHExecResult) : Except String Envelope :=
  if host = "" ∨ user = "" ∨ command = "" then
    Except.error "Missing required parameters: host, user, command"
  else
    match exec with
    | Except.ok r =>
      Except.ok
        { success := true, output := r.output, error := jsOrNullStr r.error,
          exitCode := jsOrZero r.exitCode, host := host, command := command }
    | Except.error e =>
      Except.ok
        { success := false, output := "", error := some e, exitCode := 1,
          host := host, command := command }

/-! ## Request dispatch (`index.js`, `setupToolHandlers`) -/

/-- Protocol-level MCP error codes used by the call handler. -/
inductive McpCode where
  | methodNotFound
  | internalError
deriving DecidableEq

/-- The JSON-RPC numbers of the codes (`ErrorCode.MethodNotFound = -32601`,
`ErrorCode.InternalError = -32603`). -/
def mcpCodeNumber : McpCode → Int
  | McpCode.methodNotFound => -32601
  | McpCode.internalError => -32603

/-- The `message` property of an SDK `McpError`, as the SDK formats it. -/
def mcpErrorMessage (c : McpCode) (m : String) : String :=
  "MCP error " ++ toString (mcpCodeNumber c) ++ ": " ++ m

/-- What the call handler hands back to the dispatch layer: either a tool
response body, or a thrown `McpError` (a protocol-level error outside any
tool's response body). -/
inductive HandlerOutcome where
  | response (text : String)
  | protocolError (code : McpCode) (message : String)
deriving DecidableEq

/-- The five tool identifiers of the `switch` in the call handler. -/
def toolNames : List String :=
  ["remote-ssh", "ssh-edit-block", "ssh-read-lines", "ssh-search-code",
   "ssh-write-chunk"]

/-- The `CallToolRequestSchema` handler: dispatch on the tool name (the five
tool bodies are abstracted as `runTool`, which may throw); an unmatched name
throws `McpError(MethodNotFound, ...)`.  The surrounding try/catch rethrows
every caught error — including that `McpError` — as
`McpError(InternalError, "SSH operation failed: " + error.message)`. -/
def callToolHandler (name : String) (runTool : String → Except String String) :
    HandlerOutcome :=
  let attempt : Except String String :=
    if name ∈ toolNames then runTool name
    else Except.error (mcpErrorMessage McpCode.methodNotFound ("Unknown tool: " ++ name))
  match attempt with
  | Except.ok text => HandlerOutcome.response text
  | Except.error e =>
    HandlerOutcome.protocolError McpCode.internalError ("SSH operation failed: " ++ e)

/-! ## Write-chunk (`index.js`, `executeWriteChunk`) -/

/-- File-content semantics of the synthesized write script
(`echo '<escaped content>' >> file` in append mode, `>` otherwise, source
lines 398-400): the single-quote escaping makes the echoed argument equal to
the content, and `echo` appends one trailing newline.  (Faithful for content
without backslashes, whose handling by `echo` is implementation-defined.)
The file's previous content is `none` when the file did not exist. -/
def runWriteChunkFile (prev : Option String) (content : String) (mode : String) : String :=
  if mode = "append" then prev.getD "" ++ content ++ "\n"
  else content ++ "\n"

/-- `executeWriteChunk` at the argument-validation level: the required
parameters are tested for JavaScript falsiness before the SSH client is even
constructed; the Boolean records whether key resolution / network activity
was reached.  `exec` abstracts the remote run; its thrown errors become a
plain-text failure line. -/
def executeWriteChunk (host user filePath content mode : String)
    (exec : Except String String) : Bool × Except String String :=
  if host = "" ∨ user = "" ∨ filePath = "" ∨ content = "" then
    (false, Except.error "Missing required parameters: host, user, filePath, content")
  else
    (true,
      match exec with
      | Except.ok out => Except.ok out
      | Except.error e => Except.ok ("Write chunk failed: " ++ e))

/-- `${result.exitCode}` interpolation: a missing exit code prints as `null`. -/
def optIntRepr (o : Option Int) : String :=
  match o with
  | some n => toString n
  | none => "null"

/-- `executeEditBlock` at the argument-validation level, like
`executeWriteChunk`: all five required parameters are tested for falsiness
before any key resolution or network activity. -/
def executeEditBlock (host user filePath oldText newText : String)
    (exec : Except String SSHExecResult) : Bool × Except String String :=
  if host = "" ∨ user = "" ∨ filePath = "" ∨ oldText = "" ∨ newText = "" then
    (false, Except.error "Missing required parameters: host, user, filePath, oldText, newText")
  else
    (true,
      match exec with
      | Except.ok r =>
        Except.ok ("Edit block completed on " ++ filePath ++ "\n" ++ r.output
          ++ "\nExit code: " ++ optIntRepr r.exitCode)
      | Except.error e => Except.ok ("Edit block failed: " ++ e))

/-! ## Edit-block script synthesis and semantics (`index.js`, `executeEditBlock`)

The synthesizer escapes `oldText`/`newText` (source lines 231-232) and embeds
them into a remote script (lines 235-260) that counts literal occurrences
with `grep -F`, backs the file up, runs `sed -i 's/<esc old>/<esc new>/g'`,
recounts, prints the counts, and exits 2 with a warning when the pre-edit
count was zero.  The remote file is modelled as a list of lines (lists of
characters, none containing a newline); texts are embedded assuming they are
single-line and free of the shell metacharacters active inside the script's
double and single quotes (the theorems below carry those side conditions). -/

/-- First escaping pass, `oldText.replace(/[[\]/]/g, '\\$&')`: prefix every
`[`, `]`, `/` with a backslash. -/
def sedEscPass1 (l : List Char) : List Char :=
  l.flatMap (fun c => if c = '[' ∨ c = ']' ∨ c = '/' then ['\\', c] else [c])

/-- Second escaping pass, `.replace(/\//g, '\\/')`: prefix every `/` — also
the ones just escaped by the first pass — with another backslash. -/
def sedEscPass2 (l : List Char) : List Char :=
  l.flatMap (fun c => if c = '/' then ['\\', '/'] else [c])

/-- The composed escaping applied to `oldText` and `newText`. -/
def escChars (l : List Char) : List Char :=
  sedEscPass2 (sedEscPass1 l)

/-- Whether `w` occurs as a contiguous substring of the line `s`. -/
def hasSubstr (w : List Char) : List Char → Bool
  | [] => w.isEmpty
  | c :: cs => w.isPrefixOf (c :: cs) || hasSubstr w cs

/-- `grep -F "<w>" file | wc -l` for a single-line needle `w`: the number of
lines containing `w`. -/
def countLinesContaining (file : List (List Char)) (w : List Char) : Nat :=
  (file.filter (fun l => hasSubstr w l)).length

/-- The script's reported count, `$((before_count - after_count + after_count))`
(source line 253), in the signed arithmetic of the shell. -/
def reportedReplacements (before after : Int) : Int :=
  before - after + after

/-- The text of the sed expression `s/<esc old>/<esc new>/g` built on source
line 248. -/
def sedProg (escOld escNew : List Char) : List Char :=
  's' :: '/' :: (escOld ++ '/' :: (escNew ++ ['/', 'g']))

/-- sed's scan of one field of an `s` command: a backslash escapes the next
character into the field, an unescaped `/` ends the field, and a field left
open at the end of the expression (or a trailing lone backslash) is a syntax
error. -/
def sedScanField : List Char → Option (List Char × List Char)
  | [] => none
  | c :: r =>
    if c = '\\' then
      match r with
      | [] => none
      | d :: r2 => (sedScanField r2).map (fun p => (c :: d :: p.1, p.2))
    else if c = '/' then some ([], r)
    else (sedScanField r).map (fun p => (c :: p.1, p.2))

/-- sed's parse of a substitution expression `s/pat/rep/flags`: scan the
pattern and replacement fields, everything after the third delimiter is the
flag text. -/
def sedParseSubst (prog : List Char) : Option (List Char × List Char × List Char) :=
  match prog with
  | a :: b :: r =>
    if a = 's' ∧ b = '/' then
      (sedScanField r).bind (fun p1 =>
        (sedScanField p1.2).map (fun p2 => (p1.1, p2.1, p2.2)))
    else none
  | _ => none

/-- One token of the modelled basic-regular-expression fragment: a literal
character or `.` (any character). -/
inductive SedTok where
  | lit (c : Char)
  | anyChar
deriving DecidableEq

/-- Compile a parsed sed pattern field into tokens.  A backslash makes the
next punctuation character literal (GNU sed; alphanumeric escapes have
special meanings and are outside the model), `.` matches any character, and
the repetition/class/anchor constructs `*`, `[`, `^`, `$` are outside the
model, which then makes no claim. -/
def breCompile : List Char → Option (List SedTok)
  | [] => some []
  | c :: r =>
    if c = '\\' then
      match r with
      | [] => none
      | d :: r2 =>
        if d.isAlphanum then none
        else (breCompile r2).map (fun ts => SedTok.lit d :: ts)
    else if c = '.' then (breCompile r).map (fun ts => SedTok.anyChar :: ts)
    else if c = '*' ∨ c = '[' ∨ c = '^' ∨ c = '$' then none
    else (breCompile r).map (fun ts => SedTok.lit c :: ts)

/-- Compile a parsed sed replacement field into literal characters.  A
backslash makes the next punctuation character literal; `&` (whole match)
and alphanumeric escapes (back-references etc.) are outside the model. -/
def repCompile : List Char → Option (List Char)
  | [] => some []
  | c :: r =>
    if c = '\\' then
      match r with
      | [] => none
      | d :: r2 =>
        if d.isAlphanum then none
        else (repCompile r2).map (fun l => d :: l)
    else if c = '&' then none
    else (repCompile r).map (fun l => c :: l)

/-- Whether one token matches one character of the pattern space (a line, so
it contains no newline). -/
def tokMatches : SedTok → Char → Bool
  | SedTok.lit a, b => a == b
  | SedTok.anyChar, _ => true

/-- Match a token list against the front of a line, returning the unmatched
remainder on success. -/
def matchFront : List SedTok → List Char → Option (List Char)
  | [], s => some s
  | _ :: _, [] => none
  | t :: ts, c :: cs => if tokMatches t c then matchFront ts cs else none

/-- Global substitution over one line, as `s/.../.../g` performs it: replace
the leftmost match, continue after the replaced text, never rescanning it;
on a mismatch advance one character.  The fuel argument only serves
termination and is always given as more than the line length. -/
def substLineFuel : Nat → List SedTok → List Char → List Char → List Char
  | 0, _, _, s => s
  | Nat.succ n, toks, rep, s =>
    match matchFront toks s with
    | some rest =>
      if rest.length < s.length then rep ++ substLineFuel n toks rep rest
      else s
    | none =>
      match s with
      | [] => []
      | c :: cs => c :: substLineFuel n toks rep cs

/-- Global substitution over one line. -/
def substLine (toks : List SedTok) (rep : List Char) (s : List Char) : List Char :=
  substLineFuel (s.length + 1) toks rep s

/-- Outcome of `sed -i 's/<escOld>/<escNew>/g' file` on the modelled file.
When the expression is rejected by sed — an unterminated field, a flag text
other than exactly `g` (for the expressions this synthesizer produces, any
other flag text contains a stray `/` or pattern residue, which sed rejects
as an unknown option to `s`), or an empty pattern — `sed -i` exits nonzero
without touching the file.  A pattern or replacement using constructs
outside the modelled fragment yields `none`: the model makes no claim. -/
def sedApply (escOld escNew : List Char) (file : List (List Char)) :
    Option (List (List Char)) :=
  match sedParseSubst (sedProg escOld escNew) with
  | none => some file
  | some (pat, rep, flags) =>
    if flags = ['g'] then
      match breCompile pat, repCompile rep with
      | some toks, some repl =>
        if toks = [] then some file
        else some (file.map (substLine toks repl))
      | _, _ => none
    else some file

/-- Result of one run of the synthesized edit-block script. -/
structure EditBlockResult where
  output : List String
  exitCode : Nat
  fileAfter : List (List Char)
deriving DecidableEq

/-- The synthesized edit-block script (source lines 235-260), line by line:
missing file → error and exit 1; otherwise count lines containing `oldText`
(`grep -F | wc -l`), back up, run the substitution (its own failure does not
stop the script), count lines containing `newText`, print the two report
lines, and exit 2 with a warning exactly when the pre-edit count was zero
(otherwise the final `if` exits 0).  The timestamped backup copy is outside
the target-file model. -/
def runEditBlockScript (fileExists : Bool) (file : List (List Char))
    (filePath oldText newText : String) (expectedReplacements : Int) :
    Option EditBlockResult :=
  if fileExists = false then
    some { output := ["Error: File " ++ filePath ++ " not found"],
           exitCode := 1, fileAfter := file }
  else
    match sedApply (escChars oldText.toList) (escChars newText.toList) file with
    | none => none
    | some fileAfter =>
      let before := countLinesContaining file oldText.toList
      let after := countLinesContaining fileAfter newText.toList
      some { output :=
               ["Replacements made: " ++ toString (reportedReplacements before after),
                "Expected: " ++ toString expectedReplacements]
               ++ (if before = 0 then ["Warning: Pattern not found in file"] else []),
             exitCode := if before = 0 then 2 else 0,
             fileAfter := fileAfter }

/-! ## Read-lines script (`index.js`, `executeReadLines`) -/

/-- Result of one run of the synthesized read-lines script. -/
structure ReadLinesResult where
  output : List String
  exitCode : Nat
deriving DecidableEq

/-- JavaScript truthiness of the optional numeric `endLine` argument
(`if (endLine)` on source line 294): absent or zero is falsy. -/
def jsTruthyNumOpt (n : Option Nat) : Bool :=
  match n with
  | none => false
  | some v => v ≠ 0

/-- `sed -n '<a>,<b>p' file` for 1-based `a`: with `b < a` GNU sed prints
just line `a`; otherwise lines `a` through `b` (clipped to the file). -/
def sedRangeLines (file : List String) (a b : Nat) : List String :=
  if b < a then (file.drop (a - 1)).take 1
  else (file.drop (a - 1)).take (b - a + 1)

/-- The synthesized read-lines script (source lines 292-312) under bash:
missing file → error and exit 1; otherwise it prints the
`File: <path> (<n> total lines)` header (`total_lines` is a shell variable,
`$(wc -l < file)`), then attempts
`echo "Reading lines <start>-${endLine || 'end'} (max <max>)"` — but that
`${...}` is literal shell text (the dollar was escaped in the JavaScript
template), an invalid parameter expansion, so bash reports a bad-substitution
error on stderr and the line contributes nothing to stdout (a strict POSIX
shell such as dash aborts the whole script there) — then prints
`--- Content ---` and the selected lines: `sed -n '<a>,<b>p'` when `endLine`
is truthy, else `sed -n '<a>,$p' | head -<max>`; the final pipeline exits 0. -/
def runReadLinesScript (fileExists : Bool) (file : List String) (filePath : String)
    (startLine : Nat) (endLine : Option Nat) (maxLines : Nat) : ReadLinesResult :=
  if fileExists = false then
    { output := ["Error: File " ++ filePath ++ " not found"], exitCode := 1 }
  else
    let header := "File: " ++ filePath ++ " (" ++ toString file.length ++ " total lines)"
    let content :=
      if jsTruthyNumOpt endLine then sedRangeLines file startLine (endLine.getD 0)
      else (file.drop (startLine - 1)).take maxLines
    { output := [header, "--- Content ---"] ++ content, exitCode := 0 }

/-! ## Theorems -/

/-- C2: the value reported as `Replacements made`, computed by the edit-block
script as `before_count - after_count + after_count` in shell arithmetic,
always equals `before_count`, whatever the two occurrence counts are — so the
reported count is independent of how many replacements the substitution
actually performed. -/
theorem c2_reported_count_equals_before (before after : Nat) :
    reportedReplacements (before : Int) (after : Int) = (before : Int) := by
  unfold reportedReplacements
  omega

/-- C5 counterexample: the configured key-exchange allow-list has four
entries, of which three (not two) are elliptic-curve Diffie-Hellman
variants, so an allow-list of exactly two elliptic-curve variants plus one
finite-field variant (three entries) is not what the code configures. -/
theorem c5_kex_counterexample :
    (kexAllowList.filter isEcdhKex).length = 3
    ∧ kexAllowList.length = 4
    ∧ ¬ (kexAllowList.filter isEcdhKex).length = 2
    ∧ ¬ kexAllowList.length = 3 := by
  decide

/-- C5 (amended): the connection configuration restricts key exchange to an
explicit allow-list of exactly three elliptic-curve Diffie-Hellman variants
(`nistp256`, `nistp384`, `nistp521`) plus one SHA-256 finite-field variant
(`diffie-hellman-group14-sha256`), and a session can negotiate an algorithm
precisely when it lies in this list. -/
theorem c5_kex_allowlist :
    kexAllowList = ["ecdh-sha2-nistp256", "ecdh-sha2-nistp384", "ecdh-sha2-nistp521",
      "diffie-hellman-group14-sha256"]
    ∧ (kexAllowList.filter isEcdhKex).length = 3
    ∧ (kexAllowList.filter (fun a => a == "diffie-hellman-group14-sha256")).length = 1
    ∧ ∀ alg, kexAccepts alg = true ↔ alg ∈ kexAllowList := by
  refine ⟨rfl, by decide, by decide, ?_⟩
  intro alg
  simp [kexAccepts]

/-- C6: at the failing input — an existing 10-line file read with
`startLine = 3`, `maxLines = 2` and no `endLine` — the synthesized script
emits the file/total-lines header and the two content lines 3 and 4, but no
line reporting the effective range: the range echo is the literal shell text
`$\x7bendLine || 'end'\x7d`, an invalid parameter expansion that bash reports
as a bad-substitution error on stderr (and on which a strict POSIX shell
aborts the whole script). -/
theorem c6_read_lines_missing_range_header :
    runReadLinesScript true ["l1", "l2", "l3", "l4", "l5", "l6", "l7", "l8", "l9", "l10"]
        "/tmp/t.txt" 3 none 2
      = { output := ["File: /tmp/t.txt (10 total lines)", "--- Content ---", "l3", "l4"],
          exitCode := 0 } := by
  decide

/-- C9 counterexample: two append-mode write-chunk calls with contents `A`
then `B` on an initially absent file leave the file containing `A`, a
newline, `B`, a newline — not `A` followed immediately by `B`. -/
theorem c9_append_counterexample :
    runWriteChunkFile (some (runWriteChunkFile none "A" "append")) "B" "append" = "A\nB\n"
    ∧ "A\nB\n" ≠ "AB" := by
  decide

/-- C9 (amended): for every prior state of the target file, invoking
write-chunk in append mode with content `A` and then content `B` appends the
line `A` and then the line `B`, in that order — each `echo` adds a trailing
newline, so the final content is the prior content followed by `A`, a
newline, `B`, a newline. -/
theorem c9_append_order (prev : Option String) :
    runWriteChunkFile (some (runWriteChunkFile prev "A" "append")) "B" "append"
      = prev.getD "" ++ "A\nB\n" := by
  cases prev with
  | none => decide
  | some s =>
    show s ++ "A" ++ "\n" ++ "B" ++ "\n" = s ++ "A\nB\n"
    rw [String.append_assoc, String.append_assoc, String.append_assoc]
    rfl

/-- C8 counterexample: a request naming the unknown tool `bogus-tool` is
surfaced to the dispatch layer as a protocol-level error, but with code
`InternalError` (-32603) — the handler's catch-all rewraps the
method-not-found error — not as a method-not-found error. -/
theorem c8_unknown_tool_counterexample :
    callToolHandler "bogus-tool" (fun _ => Except.ok "")
      = HandlerOutcome.protocolError McpCode.internalError
          "SSH operation failed: MCP error -32601: Unknown tool: bogus-tool"
    ∧ McpCode.internalError ≠ McpCode.methodNotFound := by
  decide

/-- C8 (amended): for every request whose tool name is outside the five
fixed identifiers, the call handler surfaces the failure to the dispatch
layer as a protocol-level error and not as any tool's response body; the
unknown-tool method-not-found error it raises is rewrapped by the handler's
catch-all, so the dispatched error carries code `InternalError` with the
method-not-found text embedded in its message. -/
theorem c8_unknown_tool_protocol_error (name : String) (h : name ∉ toolNames)
    (runTool : String → Except String String) :
    callToolHandler name runTool
      = HandlerOutcome.protocolError McpCode.internalError
          ("SSH operation failed: "
            ++ mcpErrorMessage McpCode.methodNotFound ("Unknown tool: " ++ name)) := by
  unfold callToolHandler
  rw [if_neg h]

/-- C8 witness: the amended theorem applied at the unknown name `bogus2`. -/
theorem c8_unknown_tool_witness :
    callToolHandler "bogus2" (fun _ => Except.ok "")
      = HandlerOutcome.protocolError McpCode.internalError
          ("SSH operation failed: "
            ++ mcpErrorMessage McpCode.methodNotFound ("Unknown tool: " ++ "bogus2")) :=
  c8_unknown_tool_protocol_error "bogus2" (by decide) (fun _ => Except.ok "")

/-- C4: whenever the required arguments of the remote-ssh tool are present
(truthy), the handler returns — never throws — a structured envelope whose
fields are exactly success, output, error (text or null), exitCode
(defaulting to 0 when the execution result carries no exit code), host and
command, both when the underlying execution succeeds and when it throws. -/
theorem c4_envelope (host user command : String) (exec : Except String SSHExecResult)
    (hh : host ≠ "") (hu : user ≠ "") (hc : command ≠ "") :
    (∀ r, exec = Except.ok r → executeSSHCommand host user command exec
        = Except.ok { success := true, output := r.output, error := jsOrNullStr r.error,
                      exitCode := jsOrZero r.exitCode, host := host, command := command })
    ∧ (∀ e, exec = Except.error e → executeSSHCommand host user command exec
        = Except.ok { success := false, output := "", error := some e, exitCode := 1,
                      host := host, command := command })
    ∧ (∃ env, executeSSHCommand host user command exec = Except.ok env)
    ∧ jsOrZero none = 0 := by
  unfold executeSSHCommand
  have hcond : ¬(host = "" ∨ user = "" ∨ command = "") := by
    simp [hh, hu, hc]
  rw [if_neg hcond]
  refine ⟨?_, ?_, ?_, rfl⟩
  · intro r hr; subst hr; rfl
  · intro e he; subst he; rfl
  · cases exec with
    | ok r => exact ⟨_, rfl⟩
    | error e => exact ⟨_, rfl⟩

/-- C4 witness: the theorem applied at a concrete successful execution whose
result carries no exit code. -/
theorem c4_envelope_witness :
    executeSSHCommand "h" "u" "ls" (Except.ok { output := "out", error := none, exitCode := none })
      = Except.ok { success := true, output := "out", error := none, exitCode := 0,
                    host := "h", command := "ls" } :=
  (c4_envelope "h" "u" "ls" (Except.ok { output := "out", error := none, exitCode := none })
    (by decide) (by decide) (by decide)).1 _ rfl

/-- C3: with an explicit key path the candidate set is exactly that path,
only that path is ever read, a readable file returns its bytes, and failure
names only that path; with no explicit path the three default paths are the
candidates in their fixed order, the first readable one returns its bytes,
and total failure enumerates all three. -/
theorem c3_key_resolution {α : Type} (fs : String → Option α) (home p : String)
    (hp : p ≠ "") :
    (keyCandidates home (some p) = [p])
    ∧ ((tryReadPaths fs (keyCandidates home (some p))).1 = [p])
    ∧ (∀ k, fs p = some k → getPrivateKey fs home (some p) = Except.ok k)
    ∧ (fs p = none → getPrivateKey fs home (some p)
        = Except.error ("No private key found. Tried: " ++ p ++ keyErrorSuffix))
    ∧ (keyCandidates home none
        = [home ++ "/.ssh/id_rsa", home ++ "/.ssh/id_ed25519", home ++ "/.ssh/id_ecdsa"])
    ∧ (∀ k, fs (home ++ "/.ssh/id_rsa") = some k → getPrivateKey fs home none = Except.ok k)
    ∧ (∀ k, fs (home ++ "/.ssh/id_rsa") = none → fs (home ++ "/.ssh/id_ed25519") = some k →
        getPrivateKey fs home none = Except.ok k)
    ∧ (∀ k, fs (home ++ "/.ssh/id_rsa") = none → fs (home ++ "/.ssh/id_ed25519") = none →
        fs (home ++ "/.ssh/id_ecdsa") = some k → getPrivateKey fs home none = Except.ok k)
    ∧ (fs (home ++ "/.ssh/id_rsa") = none → fs (home ++ "/.ssh/id_ed25519") = none →
        fs (home ++ "/.ssh/id_ecdsa") = none →
        getPrivateKey fs home none
          = Except.error ("No private key found. Tried: "
              ++ String.intercalate ", " (defaultKeyPaths home) ++ keyErrorSuffix)) := by
  have hc : keyCandidates home (some p) = [p] := by
    simp [keyCandidates, hp]
  refine ⟨hc, ?_, ?_, ?_, rfl, ?_, ?_, ?_, ?_⟩
  · rw [hc]; cases h : fs p <;> simp [tryReadPaths, h]
  · intro k hk
    simp [getPrivateKey, hc, tryReadPaths, hk]
  · intro hk
    simp only [getPrivateKey, hc, tryReadPaths, hk, String.intercalate]
    rfl
  · intro k hk
    simp [getPrivateKey, keyCandidates, defaultKeyPaths, tryReadPaths, hk]
  · intro k h1 hk
    simp [getPrivateKey, keyCandidates, defaultKeyPaths, tryReadPaths, h1, hk]
  · intro k h1 h2 hk
    simp [getPrivateKey, keyCandidates, defaultKeyPaths, tryReadPaths, h1, h2, hk]
  · intro h1 h2 h3
    simp [getPrivateKey, keyCandidates, defaultKeyPaths, tryReadPaths, h1, h2, h3]

/-- C3 witness: the theorem applied to an empty filesystem, the home
directory `/home/u` and the explicit path `/keys/k`, with its failure
conjuncts discharged. -/
theorem c3_key_resolution_witness :
    getPrivateKey (fun _ => (none : Option Nat)) "/home/u" (some "/keys/k")
      = Except.error ("No private key found. Tried: " ++ "/keys/k" ++ keyErrorSuffix)
    ∧ getPrivateKey (fun _ => (none : Option Nat)) "/home/u" none
      = Except.error ("No private key found. Tried: "
          ++ String.intercalate ", " (defaultKeyPaths "/home/u") ++ keyErrorSuffix) :=
  ⟨(c3_key_resolution (fun _ => (none : Option Nat)) "/home/u" "/keys/k"
      (by decide)).2.2.2.1 rfl,
   (c3_key_resolution (fun _ => (none : Option Nat)) "/home/u" "/keys/k"
      (by decide)).2.2.2.2.2.2.2.2 rfl rfl rfl⟩

/-- C10: required-argument validation tests JavaScript falsiness, so a
write-chunk call with empty content, and an edit-block call with empty
oldText or empty newText, are rejected with the missing-required-parameters
error before the SSH client is constructed (no key resolution or network
activity — the first component stays `false`), making it impossible to write
empty content or delete text through these tools. -/
theorem c10_falsiness_validation (host user filePath mode : String)
    (hh : host ≠ "") (hu : user ≠ "") (hf : filePath ≠ "") :
    (∀ exec, executeWriteChunk host user filePath "" mode exec
        = (false, Except.error "Missing required parameters: host, user, filePath, content"))
    ∧ (∀ exec newText, executeEditBlock host user filePath "" newText exec
        = (false,
           Except.error "Missing required parameters: host, user, filePath, oldText, newText"))
    ∧ (∀ exec oldText, executeEditBlock host user filePath oldText "" exec
        = (false,
           Except.error "Missing required parameters: host, user, filePath, oldText, newText")) := by
  refine ⟨fun exec => ?_, fun exec nt => ?_, fun exec ot => ?_⟩
  · simp [executeWriteChunk]
  · simp [executeEditBlock]
  · simp [executeEditBlock]

/-- C10 witness: the theorem applied at concrete truthy host, user and file
path, with empty content, empty oldText and empty newText respectively. -/
theorem c10_falsiness_validation_witness :
    executeWriteChunk "h" "u" "/tmp/f" "" "append" (Except.ok "done")
      = (false, Except.error "Missing required parameters: host, user, filePath, content")
    ∧ executeEditBlock "h" "u" "/tmp/f" "" "x"
        (Except.ok { output := "", error := none, exitCode := some 0 })
      = (false,
         Except.error "Missing required parameters: host, user, filePath, oldText, newText")
    ∧ executeEditBlock "h" "u" "/tmp/f" "x" ""
        (Except.ok { output := "", error := none, exitCode := some 0 })
      = (false,
         Except.error "Missing required parameters: host, user, filePath, oldText, newText") :=
  ⟨(c10_falsiness_validation "h" "u" "/tmp/f" "append"
      (by decide) (by decide) (by decide)).1 _,
   (c10_falsiness_validation "h" "u" "/tmp/f" "append"
      (by decide) (by decide) (by decide)).2.1 _ "x",
   (c10_falsiness_validation "h" "u" "/tmp/f" "append"
      (by decide) (by decide) (by decide)).2.2 _ "x"⟩

/-! ## Side conditions and structural lemmas for the edit-block script -/

/-- Characters that can be embedded into the synthesized script without
interacting with the shell quoting (no double quote, dollar, backtick —
code 96 — single quote — code 39 — backslash or newline) and without the
regex constructs the substitution model leaves out (`*`, `^`, `&`);
`[`, `]`, `/` and `.` remain allowed. -/
def sedSafeChar (c : Char) : Bool :=
  ¬(c = '"' ∨ c = '$' ∨ c = '\\' ∨ c = '\n' ∨ c = '*' ∨ c = '^' ∨ c = '&'
    ∨ c.toNat = 39 ∨ c.toNat = 96)

/-- A single-line text all of whose characters are `sedSafeChar`. -/
def sedSafe (s : String) : Bool :=
  s.toList.all sedSafeChar

theorem sedSafe_not_mem {s : String} (h : sedSafe s = true) :
    '\\' ∉ s.toList ∧ '*' ∉ s.toList ∧ '^' ∉ s.toList ∧ ('$') ∉ s.toList
      ∧ '&' ∉ s.toList := by
  simp only [sedSafe, List.all_eq_true] at h
  refine ⟨fun hm => ?_, fun hm => ?_, fun hm => ?_, fun hm => ?_, fun hm => ?_⟩ <;>
    exact absurd (h _ hm) (by decide)

theorem escChars_bracketL (l : List Char) :
    escChars ('[' :: l) = '\\' :: '[' :: escChars l := by
  simp [escChars, sedEscPass1, sedEscPass2, List.flatMap_cons]

theorem escChars_bracketR (l : List Char) :
    escChars (']' :: l) = '\\' :: ']' :: escChars l := by
  simp [escChars, sedEscPass1, sedEscPass2, List.flatMap_cons]

theorem escChars_slash (l : List Char) :
    escChars ('/' :: l) = '\\' :: '\\' :: '/' :: escChars l := by
  simp [escChars, sedEscPass1, sedEscPass2, List.flatMap_cons]

theorem escChars_other {c : Char} (h1 : c ≠ '[') (h2 : c ≠ ']') (h3 : c ≠ '/')
    (l : List Char) : escChars (c :: l) = c :: escChars l := by
  simp [escChars, sedEscPass1, sedEscPass2, List.flatMap_cons, h1, h2, h3]

/-- The number of unescaped delimiters `/` in a piece of sed expression text
(a backslash escapes the following character). -/
def unescCount : List Char → Nat
  | [] => 0
  | c :: r =>
    if c = '\\' then
      match r with
      | [] => 0
      | _ :: r2 => unescCount r2
    else if c = '/' then unescCount r + 1
    else unescCount r

theorem unescCount_esc_pair (d : Char) (r : List Char) :
    unescCount ('\\' :: d :: r) = unescCount r := by
  rw [unescCount.eq_def]
  simp

theorem unescCount_slash_cons (r : List Char) :
    unescCount ('/' :: r) = unescCount r + 1 := by
  rw [unescCount.eq_def]
  simp

theorem unescCount_other_cons {c : Char} (h1 : c ≠ '\\') (h2 : c ≠ '/')
    (r : List Char) : unescCount (c :: r) = unescCount r := by
  rw [unescCount.eq_def]
  simp [h1, h2]

theorem sedScanField_esc_pair (d : Char) (r : List Char) :
    sedScanField ('\\' :: d :: r)
      = (sedScanField r).map (fun p => ('\\' :: d :: p.1, p.2)) := by
  rw [sedScanField.eq_def]
  simp

theorem sedScanField_slash_cons (r : List Char) :
    sedScanField ('/' :: r) = some ([], r) := by
  rw [sedScanField.eq_def]
  simp

theorem sedScanField_other_cons {c : Char} (h1 : c ≠ '\\') (h2 : c ≠ '/')
    (r : List Char) :
    sedScanField (c :: r) = (sedScanField r).map (fun p => (c :: p.1, p.2)) := by
  rw [sedScanField.eq_def]
  simp [h1, h2]

theorem unescCount_escChars : ∀ (X : List Char), '\\' ∉ X →
    ∀ r, unescCount (escChars X ++ r) = X.count '/' + unescCount r := by
  intro X
  induction X with
  | nil => intro _ r; simp [escChars, sedEscPass1, sedEscPass2]
  | cons c X ih =>
    intro h r
    have hcb : c ≠ '\\' := fun e => h (by simp [e])
    have hX : '\\' ∉ X := fun m => h (List.mem_cons_of_mem _ m)
    by_cases h1 : c = '['
    · subst h1
      rw [escChars_bracketL, List.cons_append, List.cons_append,
        unescCount_esc_pair, ih hX r, List.count_cons]
      simp
    · by_cases h2 : c = ']'
      · subst h2
        rw [escChars_bracketR, List.cons_append, List.cons_append,
          unescCount_esc_pair, ih hX r, List.count_cons]
        simp
      · by_cases h3 : c = '/'
        · subst h3
          rw [escChars_slash, List.cons_append, List.cons_append, List.cons_append,
            unescCount_esc_pair, unescCount_slash_cons, ih hX r, List.count_cons]
          simp
          omega
        · rw [escChars_other h1 h2 h3, List.cons_append,
            unescCount_other_cons hcb h3, ih hX r, List.count_cons]
          simp [h3]

theorem sedScanField_success : ∀ (n : Nat) (t : List Char), t.length ≤ n →
    1 ≤ unescCount t →
    ∃ f r, sedScanField t = some (f, r) ∧ unescCount t = unescCount r + 1 := by
  intro n
  induction n with
  | zero =>
    intro t ht hc
    have h0 : t = [] := List.length_eq_zero.mp (Nat.le_zero.mp ht)
    subst h0
    simp [unescCount] at hc
  | succ n ih =>
    intro t ht hc
    cases t with
    | nil => simp [unescCount] at hc
    | cons c r =>
      by_cases hb : c = '\\'
      · subst hb
        cases r with
        | nil => simp [unescCount] at hc
        | cons d r2 =>
          obtain ⟨f, rr, hscan, hcount⟩ := ih r2
            (by simp at ht; omega) (by rwa [unescCount_esc_pair] at hc)
          refine ⟨'\\' :: d :: f, rr, ?_, ?_⟩
          · rw [sedScanField_esc_pair, hscan]; rfl
          · rw [unescCount_esc_pair, hcount]
      · by_cases hs : c = '/'
        · subst hs
          exact ⟨[], r, sedScanField_slash_cons r, unescCount_slash_cons r⟩
        · obtain ⟨f, rr, hscan, hcount⟩ := ih r
            (by simp at ht; omega) (by rwa [unescCount_other_cons hb hs] at hc)
          refine ⟨c :: f, rr, ?_, ?_⟩
          · rw [sedScanField_other_cons hb hs, hscan]; rfl
          · rw [unescCount_other_cons hb hs, hcount]

theorem sedScanField_escChars : ∀ (X : List Char), '\\' ∉ X → '/' ∉ X → ∀ r,
    sedScanField (escChars X ++ '/' :: r) = some (escChars X, r) := by
  intro X
  induction X with
  | nil =>
    intro _ _ r
    show sedScanField ([] ++ '/' :: r) = some ([], r)
    rw [List.nil_append, sedScanField_slash_cons]
  | cons c X ih =>
    intro h1 h2 r
    have hcb : c ≠ '\\' := fun e => h1 (by simp [e])
    have hcs : c ≠ '/' := fun e => h2 (by simp [e])
    have hX1 : '\\' ∉ X := fun m => h1 (List.mem_cons_of_mem _ m)
    have hX2 : '/' ∉ X := fun m => h2 (List.mem_cons_of_mem _ m)
    by_cases hb : c = '['
    · subst hb
      rw [escChars_bracketL, List.cons_append, List.cons_append,
        sedScanField_esc_pair, ih hX1 hX2 r]
      rfl
    · by_cases hb2 : c = ']'
      · subst hb2
        rw [escChars_bracketR, List.cons_append, List.cons_append,
          sedScanField_esc_pair, ih hX1 hX2 r]
        rfl
      · rw [escChars_other hb hb2 hcs, List.cons_append,
          sedScanField_other_cons hcb hcs, ih hX1 hX2 r]
        rfl

theorem breCompile_esc_pair (d : Char) (r : List Char) :
    breCompile ('\\' :: d :: r)
      = if d.isAlphanum then none
        else (breCompile r).map (fun ts => SedTok.lit d :: ts) := by
  rw [breCompile.eq_def]
  simp

theorem breCompile_dot_cons (r : List Char) :
    breCompile ('.' :: r) = (breCompile r).map (fun ts => SedTok.anyChar :: ts) := by
  rw [breCompile.eq_def]
  simp

theorem breCompile_other_cons {c : Char} (h1 : c ≠ '\\') (h2 : c ≠ '.')
    (h3 : ¬(c = '*' ∨ c = '[' ∨ c = '^' ∨ c = '$')) (r : List Char) :
    breCompile (c :: r) = (breCompile r).map (fun ts => SedTok.lit c :: ts) := by
  rw [breCompile.eq_def]
  simp [h1, h2, h3]

theorem repCompile_esc_pair (d : Char) (r : List Char) :
    repCompile ('\\' :: d :: r)
      = if d.isAlphanum then none else (repCompile r).map (fun l => d :: l) := by
  rw [repCompile.eq_def]
  simp

theorem repCompile_other_cons {c : Char} (h1 : c ≠ '\\') (h2 : c ≠ '&')
    (r : List Char) :
    repCompile (c :: r) = (repCompile r).map (fun l => c :: l) := by
  rw [repCompile.eq_def]
  simp [h1, h2]

theorem breCompile_escChars : ∀ (X : List Char), '\\' ∉ X → '/' ∉ X → '*' ∉ X →
    '^' ∉ X → ('$') ∉ X →
    breCompile (escChars X)
      = some (X.map fun c => if c = '.' then SedTok.anyChar else SedTok.lit c) := by
  intro X
  induction X with
  | nil => intro _ _ _ _ _; rfl
  | cons c X ih =>
    intro h1 h2 h3 h4 h5
    have tail := ih (fun m => h1 (List.mem_cons_of_mem _ m))
      (fun m => h2 (List.mem_cons_of_mem _ m)) (fun m => h3 (List.mem_cons_of_mem _ m))
      (fun m => h4 (List.mem_cons_of_mem _ m)) (fun m => h5 (List.mem_cons_of_mem _ m))
    have hcb : c ≠ '\\' := fun e => h1 (by simp [e])
    have hcs : c ≠ '/' := fun e => h2 (by simp [e])
    have hcst : c ≠ '*' := fun e => h3 (by simp [e])
    have hcc : c ≠ '^' := fun e => h4 (by simp [e])
    have hcd : c ≠ '$' := fun e => h5 (by simp [e])
    by_cases hb : c = '['
    · subst hb
      rw [escChars_bracketL, breCompile_esc_pair, tail]
      simp
    · by_cases hb2 : c = ']'
      · subst hb2
        rw [escChars_bracketR, breCompile_esc_pair, tail]
        simp
      · rw [escChars_other hb hb2 hcs]
        by_cases hdot : c = '.'
        · subst hdot
          rw [breCompile_dot_cons, tail]
          simp
        · rw [breCompile_other_cons hcb hdot (by simp [hcst, hb, hcc, hcd]), tail]
          simp [hdot]

theorem repCompile_escChars : ∀ (Y : List Char), '\\' ∉ Y → '/' ∉ Y → '&' ∉ Y →
    repCompile (escChars Y) = some Y := by
  intro Y
  induction Y with
  | nil => intro _ _ _; rfl
  | cons c Y ih =>
    intro h1 h2 h3
    have tail := ih (fun m => h1 (List.mem_cons_of_mem _ m))
      (fun m => h2 (List.mem_cons_of_mem _ m)) (fun m => h3 (List.mem_cons_of_mem _ m))
    have hcb : c ≠ '\\' := fun e => h1 (by simp [e])
    have hcs : c ≠ '/' := fun e => h2 (by simp [e])
    have hca : c ≠ '&' := fun e => h3 (by simp [e])
    by_cases hb : c = '['
    · subst hb
      rw [escChars_bracketL, repCompile_esc_pair, tail]
      simp
    · by_cases hb2 : c = ']'
      · subst hb2
        rw [escChars_bracketR, repCompile_esc_pair, tail]
        simp
      · rw [escChars_other hb hb2 hcs, repCompile_other_cons hcb hca, tail]
        rfl

theorem matchFront_cons_cons (t : SedTok) (ts : List SedTok) (c : Char)
    (cs : List Char) :
    matchFront (t :: ts) (c :: cs)
      = if tokMatches t c then matchFront ts cs else none := rfl

theorem matchFront_lit_of_not_prefix :
    ∀ (w s : List Char), w.isPrefixOf s = false →
      matchFront (w.map SedTok.lit) s = none := by
  intro w
  induction w with
  | nil =>
    intro s h
    cases s with
    | nil => exact Bool.noConfusion h
    | cons d s2 => exact Bool.noConfusion h
  | cons c w ih =>
    intro s h
    cases s with
    | nil => rfl
    | cons d s2 =>
      have h2 : (c == d && w.isPrefixOf s2) = false := h
      rw [List.map_cons, matchFront_cons_cons]
      by_cases hcd : c = d
      · have hw : w.isPrefixOf s2 = false := by
          subst hcd
          simpa using h2
        simp [tokMatches, hcd, ih s2 hw]
      · simp [tokMatches, hcd]

theorem substLineFuel_of_no_substr (w rep : List Char) :
    ∀ (n : Nat) (s : List Char), s.length < n → hasSubstr w s = false →
      substLineFuel n (w.map SedTok.lit) rep s = s := by
  intro n
  induction n with
  | zero => intro s h1 _; exact absurd h1 (Nat.not_lt_zero _)
  | succ n ih =>
    intro s h1 h2
    cases s with
    | nil =>
      cases w with
      | nil => simp [hasSubstr] at h2
      | cons c w2 => rfl
    | cons c cs =>
      have hsplit : w.isPrefixOf (c :: cs) = false ∧ hasSubstr w cs = false := by
        have := h2
        rw [hasSubstr.eq_def] at this
        exact Bool.or_eq_false_iff.mp this
      have hm := matchFront_lit_of_not_prefix w (c :: cs) hsplit.1
      rw [substLineFuel.eq_def]
      simp only [hm]
      rw [ih cs (by simp at h1; omega) hsplit.2]

theorem substLine_of_no_substr (w rep s : List Char) (h : hasSubstr w s = false) :
    substLine (w.map SedTok.lit) rep s = s :=
  substLineFuel_of_no_substr w rep (s.length + 1) s (Nat.lt_succ_self _) h

theorem sedParseSubst_cons (r : List Char) :
    sedParseSubst ('s' :: '/' :: r)
      = (sedScanField r).bind (fun p1 =>
          (sedScanField p1.2).map (fun p2 => (p1.1, p2.1, p2.2))) := by
  rw [sedParseSubst.eq_def]
  simp

theorem sedParseSubst_clean (X Y : List Char) (hX1 : '\\' ∉ X) (hX2 : '/' ∉ X)
    (hY1 : '\\' ∉ Y) (hY2 : '/' ∉ Y) :
    sedParseSubst (sedProg (escChars X) (escChars Y))
      = some (escChars X, escChars Y, ['g']) := by
  unfold sedProg
  rw [sedParseSubst_cons, sedScanField_escChars X hX1 hX2]
  simp only [Option.some_bind]
  rw [sedScanField_escChars Y hY1 hY2]
  rfl

/-- When either text contains a slash, the doubly-escaped `/` makes the
substitution expression parse into a flag field that still contains an
unescaped `/`, which sed rejects — the file is left untouched. -/
theorem sedApply_of_slash (X Y : List Char) (hX : '\\' ∉ X) (hY : '\\' ∉ Y)
    (h : '/' ∈ X ∨ '/' ∈ Y) (file : List (List Char)) :
    sedApply (escChars X) (escChars Y) file = some file := by
  have h1 : unescCount (escChars X ++ '/' :: (escChars Y ++ ['/', 'g']))
      = X.count '/' + Y.count '/' + 2 := by
    rw [unescCount_escChars X hX, unescCount_slash_cons, unescCount_escChars Y hY]
    have hg : unescCount ['/', 'g'] = 1 := by
      rw [unescCount_slash_cons]
      rfl
    omega
  have hpos : 1 ≤ X.count '/' + Y.count '/' := by
    rcases h with h | h
    · have := List.count_pos_iff.mpr h
      omega
    · have := List.count_pos_iff.mpr h
      omega
  obtain ⟨f1, r1, hs1, hc1⟩ :=
    sedScanField_success (escChars X ++ '/' :: (escChars Y ++ ['/', 'g'])).length _
      le_rfl (by omega)
  obtain ⟨f2, r2, hs2, hc2⟩ := sedScanField_success r1.length r1 le_rfl (by omega)
  have hflags : ¬ r2 = ['g'] := by
    intro e
    subst e
    have hg0 : unescCount ['g'] = 0 := rfl
    omega
  unfold sedApply sedProg
  rw [sedParseSubst_cons, hs1]
  simp only [Option.some_bind]
  rw [hs2]
  simp [hflags]

theorem sedApply_clean_lit (X Y : List Char) (file : List (List Char))
    (hX1 : '\\' ∉ X) (hX2 : '/' ∉ X) (hX3 : '*' ∉ X) (hX4 : '^' ∉ X)
    (hX5 : ('$') ∉ X) (hXdot : ('.') ∉ X) (hXne : X ≠ [])
    (hY1 : '\\' ∉ Y) (hY2 : '/' ∉ Y) (hY3 : '&' ∉ Y) :
    sedApply (escChars X) (escChars Y) file
      = some (file.map (substLine (X.map SedTok.lit) Y)) := by
  have hmap : (X.map fun c => if c = '.' then SedTok.anyChar else SedTok.lit c)
      = X.map SedTok.lit := by
    apply List.map_congr_left
    intro a ha
    have : a ≠ '.' := fun e => hXdot (e ▸ ha)
    simp [this]
  have htoksne : ¬ X.map SedTok.lit = [] := by
    simp [hXne]
  unfold sedApply
  rw [sedParseSubst_clean X Y hX1 hX2 hY1 hY2]
  simp only []
  rw [breCompile_escChars X hX1 hX2 hX3 hX4 hX5, repCompile_escChars Y hY1 hY2 hY3,
    hmap]
  simp [htoksne]

/-- C1: at the failing input — remote file line `x a/b y`, oldText `a/b`
(present in the file), newText `NEW` — the synthesized substitution is the
malformed expression `s/a\\/b/NEW/g` (the `/` of the search text is escaped
twice), which sed rejects, so no replacement happens and the file keeps its
old content, while the script still reports `Replacements made: 1` and exits
with code 0; a literal substitution would have produced `x NEW y`. -/
theorem c1_slash_escape_bug :
    runEditBlockScript true [("x a/b y").toList] "notes.txt" "a/b" "NEW" 1
      = some { output := ["Replacements made: 1", "Expected: 1"], exitCode := 0,
               fileAfter := [("x a/b y").toList] }
    ∧ escChars ("a/b").toList = ['a', '\\', '\\', '/', 'b']
    ∧ ("x a/b y").toList ≠ ("x NEW y").toList := by
  decide

/-- C7 counterexample: oldText `a.c` has zero occurrences in the file
`abc here` (the count is a fixed-string grep), the script exits 2 with the
pattern-not-found warning — and still rewrites the file: the unescaped `.`
in the sed pattern matches `abc`, so the file becomes `ZZZ here`. -/
theorem c7_zero_count_counterexample :
    runEditBlockScript true [("abc here").toList] "f.txt" "a.c" "ZZZ" 1
      = some { output := ["Replacements made: 0", "Expected: 1",
                          "Warning: Pattern not found in file"],
               exitCode := 2, fileAfter := [("ZZZ here").toList] }
    ∧ [("ZZZ here").toList] ≠ [("abc here").toList] := by
  decide

/-- C7 (amended): for every edit-block invocation on an existing file whose
search text is nonempty, single-line, free of shell-active characters and of
the substitution metacharacters left unescaped by the synthesizer (`.`,
`*`, `^`, `$`, `&` — slashes and brackets are fine), and occurs on no line of
the file, the script exits with code 2, emits the pattern-not-found warning,
and leaves the file unchanged; a search text containing such a metacharacter
can instead still rewrite the file (see the counterexample). -/
theorem c7_zero_occurrence_unchanged (file : List (List Char)) (fp X Y : String)
    (hXs : sedSafe X = true) (hXdot : ('.') ∉ X.toList) (hXne : X.toList ≠ [])
    (hYs : sedSafe Y = true)
    (hzero : countLinesContaining file X.toList = 0) :
    ∃ res, runEditBlockScript true file fp X Y 1 = some res
      ∧ res.exitCode = 2
      ∧ "Warning: Pattern not found in file" ∈ res.output
      ∧ res.fileAfter = file := by
  obtain ⟨hXbs, hXst, hXcar, hXdol, hXamp⟩ := sedSafe_not_mem hXs
  obtain ⟨hYbs, hYst, hYcar, hYdol, hYamp⟩ := sedSafe_not_mem hYs
  have hall : ∀ l ∈ file, hasSubstr X.toList l = false := by
    intro l hl
    have hfil : file.filter (fun l => hasSubstr X.toList l) = [] :=
      List.length_eq_zero.mp hzero
    have h2 := (List.filter_eq_nil_iff.mp hfil) l hl
    simpa using h2
  have happly : sedApply (escChars X.toList) (escChars Y.toList) file = some file := by
    by_cases hsl : '/' ∈ X.toList ∨ '/' ∈ Y.toList
    · exact sedApply_of_slash _ _ hXbs hYbs hsl file
    · push_neg at hsl
      rw [sedApply_clean_lit X.toList Y.toList file hXbs hsl.1 hXst hXcar hXdol
        hXdot hXne hYbs hsl.2 hYamp]
      have hmapid : file.map (substLine (X.toList.map SedTok.lit) Y.toList) = file := by
        rw [List.map_congr_left (fun l hl => substLine_of_no_substr _ _ _ (hall l hl))]
        simp
      rw [hmapid]
  have hrun : runEditBlockScript true file fp X Y 1
      = some ⟨["Replacements made: "
            ++ toString (reportedReplacements 0 (countLinesContaining file Y.toList)),
          "Expected: " ++ toString (1 : Int),
          "Warning: Pattern not found in file"], 2, file⟩ := by
    have hzero2 : countLinesContaining file X.data = 0 := hzero
    unfold runEditBlockScript
    rw [if_neg (show ¬(true = false) by decide), happly]
    simp [hzero2]
  exact ⟨_, hrun, rfl, by simp, rfl⟩

/-- C7 witness: the amended theorem applied at a concrete file lacking the
search text. -/
theorem c7_zero_occurrence_witness :
    ∃ res, runEditBlockScript true [("hello world").toList] "/tmp/f.txt" "zz" "Q" 1
        = some res
      ∧ res.exitCode = 2
      ∧ "Warning: Pattern not found in file" ∈ res.output
      ∧ res.fileAfter = [("hello world").toList] :=
  c7_zero_occurrence_unchanged [("hello world").toList] "/tmp/f.txt" "zz" "Q"
    (by decide) (by decide) (by decide) (by decide) (by decide)
